import Mathlib

/-!
Shallow embedding of the ukbus-timetable-updater consolidation engine
(txc-build/build.js with operator-resolver.js, and txc-build/shard.js).

Conventions of the embedding:
  - JavaScript Date values are modelled as integers (milliseconds since the
    epoch); parseISO results are Option Int, with none standing for null
    (absent or unparseable date string).
  - JavaScript Map objects are modelled as association lists kept in
    insertion order; Map.get is lookupAssoc, Map.set is updateAssoc.
  - String fields of the normalized structures hold the values after the
    source's String(...) coercions; Option Int fields hold parsed numbers
    with none for an absent field.
-/

namespace TxcBuild

/-- Association-list lookup, modelling JavaScript Map.get and object
property access by key. -/
def lookupAssoc {β : Type} : List (String × β) → String → Option β
  | [], _ => none
  | (k, v) :: rest, key => if k = key then some v else lookupAssoc rest key

/-- Association-list update, modelling JavaScript Map.set: replaces the value
at an existing key, or appends a new binding at the end, preserving
insertion order. -/
def updateAssoc {β : Type} : List (String × β) → String → β → List (String × β)
  | [], key, v => [(key, v)]
  | (k, w) :: rest, key, v =>
      if k = key then (key, v) :: rest else (k, w) :: updateAssoc rest key v

theorem lookupAssoc_updateAssoc_self {β : Type} (l : List (String × β)) (k : String) (v : β) :
    lookupAssoc (updateAssoc l k v) k = some v := by
  induction l with
  | nil => simp [updateAssoc, lookupAssoc]
  | cons p rest ih =>
    obtain ⟨a, b⟩ := p
    by_cases h : a = k <;> simp [updateAssoc, lookupAssoc, h, ih]

theorem lookupAssoc_updateAssoc_ne {β : Type} (l : List (String × β)) (k k' : String) (v : β)
    (h : k ≠ k') : lookupAssoc (updateAssoc l k v) k' = lookupAssoc l k' := by
  induction l with
  | nil => simp [updateAssoc, lookupAssoc, h]
  | cons p rest ih =>
    obtain ⟨a, b⟩ := p
    by_cases ha : a = k
    · subst ha; simp [updateAssoc, lookupAssoc, h]
    · simp [updateAssoc, lookupAssoc, ha, ih]

theorem lookupAssoc_append_of_none {β : Type} (l : List (String × β)) (k : String) (v : β)
    (h : lookupAssoc l k = none) : lookupAssoc (l ++ [(k, v)]) k = some v := by
  induction l with
  | nil => simp [lookupAssoc]
  | cons p rest ih =>
    obtain ⟨a, b⟩ := p
    by_cases ha : a = k
    · simp [lookupAssoc, ha] at h
    · simp [lookupAssoc, ha] at h ⊢
      exact ih h

/-- Parsed operating-period dates of one Service element: the results of
parseISO(op.StartDate or op.Start) and parseISO(op.EndDate or op.End). -/
structure SvcDates where
  opStart : Option Int
  opEnd : Option Int
deriving DecidableEq

/-- Parsed document-level fallback dates of a TransXChange root: the
valid-between pair (FromDate/StartDate/Start, ToDate/EndDate/End) and the
generic operating-period pair (StartDate/Start, EndDate/End). -/
structure DocDates where
  vbStart : Option Int
  vbEnd : Option Int
  ropStart : Option Int
  ropEnd : Option Int
deriving DecidableEq

/-- The helper inRange from build.js: (t, a, b) => !(a && t < a) && !(b && t > b).
A present bound is always a truthy Date object, so the guards test presence. -/
def inRange (t : Int) (a b : Option Int) : Bool :=
  !(a.any fun x => decide (t < x)) && !(b.any fun y => decide (t > y))

/-- The start bound resolved by serviceIsActiveToday: the service's own
operating-period start, else the document valid-between start, else the
document generic operating-period start. -/
def resolvedStart (sd : SvcDates) (dd : DocDates) : Option Int :=
  sd.opStart <|> dd.vbStart <|> dd.ropStart

/-- The end bound resolved by serviceIsActiveToday: the service's own
operating-period end, else the document valid-between end, else the
document generic operating-period end. -/
def resolvedEnd (sd : SvcDates) (dd : DocDates) : Option Int :=
  sd.opEnd <|> dd.vbEnd <|> dd.ropEnd

/-- serviceIsActiveToday from build.js: resolve the start and end bounds
through their fallback chains, treat a fully date-free service as valid,
otherwise test the reference date against the resolved bounds. -/
def serviceIsActiveToday (today : Int) (sd : SvcDates) (dd : DocDates) : Bool :=
  let s := resolvedStart sd dd
  let e := resolvedEnd sd dd
  if s.isNone && e.isNone then true else inRange today s e

/-- C1 counterexample: a service whose own operating period supplies a start
(day 0) but no end is still cut off by the document-level valid-between end
(day 5): on day 10 the filter returns false, while the claim's first-present-pair
rule would keep the service valid for all dates on or after day 0. -/
theorem c1_pair_priority_counterexample :
    serviceIsActiveToday 10 { opStart := some 0, opEnd := none }
      { vbStart := none, vbEnd := some 5, ropStart := none, ropEnd := none } = false := by
  decide

/-- C1 amended: the validity filter resolves the start and the end bound
independently, each as the first present value in the priority order service
operating period, then document valid-between, then document generic operating
period; the filter is exactly the inclusive range test against these two
independently resolved optional bounds (a side missing at every level is no
bound at all, and the no-dates special case is subsumed by the range test). -/
theorem c1_side_independent_resolution (today : Int) (sd : SvcDates) (dd : DocDates) :
    serviceIsActiveToday today sd dd =
      inRange today (resolvedStart sd dd) (resolvedEnd sd dd) := by
  unfold serviceIsActiveToday
  rcases h1 : resolvedStart sd dd with _ | x <;>
    rcases h2 : resolvedEnd sd dd with _ | y <;>
      simp [inRange, Option.any]

/-- C6: the range test accepts exactly the reference dates lying inclusively
between the present bounds, an absent side imposing no constraint; and a
service with no date information anywhere, neither on the service nor at
document level, is always active. -/
theorem c6_validity_filter (D : Int) (a b : Option Int) :
    (inRange D a b = true ↔
      (∀ x, a = some x → x ≤ D) ∧ (∀ y, b = some y → D ≤ y))
    ∧ serviceIsActiveToday D { opStart := none, opEnd := none }
        { vbStart := none, vbEnd := none, ropStart := none, ropEnd := none } = true := by
  constructor
  · cases a <;> cases b <;> simp [inRange, Option.any]
  · rfl

/-- Version key of a service occurrence: revision number and publication
timestamp, as computed by pickBest in build.js (absent revision falls back to
the document revision and then to 0; absent timestamp to the epoch). -/
structure VersionKey where
  rev : Int
  pubTs : Int
deriving DecidableEq

/-- The comparison newer from build.js:
(a, b) => a.rev !== b.rev ? a.rev > b.rev : a.pubTs > b.pubTs. -/
def newer (a b : VersionKey) : Bool :=
  if a.rev ≠ b.rev then decide (a.rev > b.rev) else decide (a.pubTs > b.pubTs)

/-- pickBest from build.js: revision from the service, else the document,
else 0; publication timestamp from the document, else the epoch (0). -/
def pickBest (svcRev docRev docPubTs : Option Int) : VersionKey :=
  { rev := (svcRev <|> docRev).getD 0, pubTs := docPubTs.getD 0 }

/-- The version gate of parseTXC for one service code: a candidate is accepted
when no key is retained for the code, or when the candidate is newer than the
retained key (prev && !newer(ver, prev) means rejection in the source). -/
def versionAccepts (best : List (String × VersionKey)) (code : String)
    (ver : VersionKey) : Bool :=
  match lookupAssoc best code with
  | some prev => newer ver prev
  | none => true

/-- One update of the retained key for a single service code: keep the
previous key unless the candidate is newer (or nothing was retained yet). -/
def resolveStep (acc : Option VersionKey) (c : VersionKey) : Option VersionKey :=
  match acc with
  | none => some c
  | some prev => if newer c prev then some c else some prev

/-- The retained version key after presenting a list of candidates in order. -/
def resolveSequence (cands : List VersionKey) : Option VersionKey :=
  cands.foldl resolveStep none

theorem newer_iff (a b : VersionKey) :
    newer a b = true ↔ (b.rev < a.rev ∨ (a.rev = b.rev ∧ b.pubTs < a.pubTs)) := by
  unfold newer
  by_cases h : a.rev = b.rev <;> simp [h] <;> omega

theorem newer_false_iff (a b : VersionKey) :
    newer a b = false ↔ (a.rev < b.rev ∨ (a.rev = b.rev ∧ a.pubTs ≤ b.pubTs)) := by
  unfold newer
  by_cases h : a.rev = b.rev <;> simp [h] <;> omega

theorem versionKey_ext (a b : VersionKey) (h1 : a.rev = b.rev) (h2 : a.pubTs = b.pubTs) :
    a = b := by
  cases a; cases b; simp_all

theorem resolveStep_rightComm (acc : Option VersionKey) (c1 c2 : VersionKey) :
    resolveStep (resolveStep acc c1) c2 = resolveStep (resolveStep acc c2) c1 := by
  have key : ∀ x y : VersionKey, newer x y = true ∨ newer x y = false :=
    fun x y => by cases h : newer x y <;> simp
  rcases acc with _ | p
  · rcases key c2 c1 with h1 | h1 <;> rcases key c1 c2 with h2 | h2 <;>
      simp [resolveStep, h1, h2] <;>
        (try rw [newer_iff] at h1) <;> (try rw [newer_false_iff] at h1) <;>
          (try rw [newer_iff] at h2) <;> (try rw [newer_false_iff] at h2) <;>
            first
              | rfl
              | (exfalso; omega)
              | (apply versionKey_ext <;> omega)
  · rcases key c1 p with h3 | h3 <;> rcases key c2 p with h4 | h4 <;>
      rcases key c2 c1 with h1 | h1 <;> rcases key c1 c2 with h2 | h2 <;>
        simp [resolveStep, h1, h2, h3, h4] <;>
          (try rw [newer_iff] at h1) <;> (try rw [newer_false_iff] at h1) <;>
            (try rw [newer_iff] at h2) <;> (try rw [newer_false_iff] at h2) <;>
              (try rw [newer_iff] at h3) <;> (try rw [newer_false_iff] at h3) <;>
                (try rw [newer_iff] at h4) <;> (try rw [newer_false_iff] at h4) <;>
                  first
                    | rfl
                    | (exfalso; omega)
                    | (apply versionKey_ext <;> omega)

/-- C7: the finally retained VersionKey for a service code depends only on the
set of candidates presented to the resolver, not on their arrival order. -/
theorem c7_order_independent (l1 l2 : List VersionKey) (h : l1.Perm l2) :
    resolveSequence l1 = resolveSequence l2 := by
  unfold resolveSequence
  exact h.foldl_eq' (fun x _ y _ z => resolveStep_rightComm z x y) none

/-- C7 witness: two permuted candidate lists yield the same retained key. -/
theorem c7_order_independent_witness :
    resolveSequence [⟨1, 0⟩, ⟨2, 7⟩, ⟨2, 3⟩] = resolveSequence [⟨2, 3⟩, ⟨1, 0⟩, ⟨2, 7⟩] :=
  c7_order_independent [⟨1, 0⟩, ⟨2, 7⟩, ⟨2, 3⟩] [⟨2, 3⟩, ⟨1, 0⟩, ⟨2, 7⟩] (by decide)

/-- Model of String.prototype.trim: strip leading and trailing whitespace.
Written over the character list so that it evaluates by kernel reduction. -/
def jsTrim (s : String) : String :=
  ⟨((s.data.dropWhile Char.isWhitespace).reverse.dropWhile Char.isWhitespace).reverse⟩

/-- Model of String.prototype.startsWith. -/
def jsStartsWith (s p : String) : Bool :=
  p.data.isPrefixOf s.data

/-- First non-empty string of a list, else the empty string: the JavaScript
idiom a or b or c or the empty string on string operands. -/
def firstNonEmpty (l : List String) : String :=
  (l.find? fun x => x != "").getD ""

/-- resolveOperator from operator-resolver.js. The override object is modelled
as an association list in its declared key order (Object.entries order for the
non-numeric keys the overrides use); the canonical NOC table as an association
list as well. -/
def resolveOperator (rawCode txcName : String) (nocMap : List (String × String))
    (overrides : List (String × String)) : String :=
  let code := jsTrim rawCode
  let name := jsTrim txcName
  match (if code ≠ "" then lookupAssoc overrides code else none) with
  | some v => v
  | none =>
    match (if code ≠ "" then overrides.find? (fun p => p.1 != "" && jsStartsWith code p.1) else none) with
    | some p => p.2
    | none =>
      match (if code ≠ "" then lookupAssoc nocMap code else none) with
      | some v => v
      | none =>
        match (if name ≠ "" then lookupAssoc overrides name else none) with
        | some v => v
        | none => if name ≠ "" then name else code

/-- Restatement of operator resolution following the specification's words:
the first present candidate among (1) exact override by code, (2) prefix
override in declared order, (3) canonical table lookup by code, (4) exact
override by name, (5) the non-empty name, with the code itself as the last
resort. Used to check resolveOperator against the claimed priority chain. -/
def resolveOperatorSpec (rawCode txcName : String) (nocMap : List (String × String))
    (overrides : List (String × String)) : String :=
  let code := jsTrim rawCode
  let name := jsTrim txcName
  (List.findSome? id
    [ if code ≠ "" then lookupAssoc overrides code else none,
      if code ≠ "" then (overrides.find? fun p => p.1 != "" && jsStartsWith code p.1).map Prod.snd else none,
      if code ≠ "" then lookupAssoc nocMap code else none,
      if name ≠ "" then lookupAssoc overrides name else none,
      if name ≠ "" then some name else none ]).getD code

/-- C3: resolveOperator implements exactly the claimed six-step priority chain,
and in particular: a prefix override resolves TKT_OID:9, the canonical table
resolves ABCD, the document name resolves the unknown code ZZZZ, and empty
code with empty name resolves to the empty string. -/
theorem c3_operator_resolution :
    (∀ rawCode txcName nocMap overrides,
        resolveOperator rawCode txcName nocMap overrides =
          resolveOperatorSpec rawCode txcName nocMap overrides)
    ∧ resolveOperator "TKT_OID:9" "" [("ABCD", "Acme Buses")]
        [("TKT_OID", "Bee Network Metroline")] = "Bee Network Metroline"
    ∧ resolveOperator "ABCD" "" [("ABCD", "Acme Buses")]
        [("TKT_OID", "Bee Network Metroline")] = "Acme Buses"
    ∧ resolveOperator "ZZZZ" "Local Line" [("ABCD", "Acme Buses")]
        [("TKT_OID", "Bee Network Metroline")] = "Local Line"
    ∧ resolveOperator "" "" [("ABCD", "Acme Buses")]
        [("TKT_OID", "Bee Network Metroline")] = "" := by
  refine ⟨?_, by decide, by decide, by decide, by decide⟩
  intro rawCode txcName nocMap overrides
  unfold resolveOperator resolveOperatorSpec
  by_cases hc : jsTrim rawCode = ""
  · by_cases hn : jsTrim txcName = ""
    · simp [hc, hn, List.findSome?]
    · cases h4 : lookupAssoc overrides (jsTrim txcName) <;>
        simp [hc, hn, h4, List.findSome?]
  · by_cases hn : jsTrim txcName = ""
    · cases h1 : lookupAssoc overrides (jsTrim rawCode) <;>
        cases h2 : List.find? (fun p => p.1 != "" && jsStartsWith (jsTrim rawCode) p.1) overrides <;>
          cases h3 : lookupAssoc nocMap (jsTrim rawCode) <;>
            simp [hc, hn, h1, h2, h3, List.findSome?]
    · cases h1 : lookupAssoc overrides (jsTrim rawCode) <;>
        cases h2 : List.find? (fun p => p.1 != "" && jsStartsWith (jsTrim rawCode) p.1) overrides <;>
          cases h3 : lookupAssoc nocMap (jsTrim rawCode) <;>
            cases h4 : lookupAssoc overrides (jsTrim txcName) <;>
              simp [hc, hn, h1, h2, h3, h4, List.findSome?]

/-- The externally visible service record stored per stop (svc in build.js):
five string fields. -/
structure SvcRec where
  ref : String
  name : String
  operator : String
  operatorCode : String
  serviceCode : String
deriving DecidableEq

/-- Structural serialization of the whole record, the JSON.stringify fallback
of the identity key; String.quote stands in for the JSON string escaping. -/
def jsonStringify (s : SvcRec) : String :=
  "\x7b\"ref\":" ++ s.ref.quote ++ ",\"name\":" ++ s.name.quote ++
    ",\"operator\":" ++ s.operator.quote ++ ",\"operatorCode\":" ++ s.operatorCode.quote ++
    ",\"serviceCode\":" ++ s.serviceCode.quote ++ "\x7d"

/-- Identity key from add in build.js:
svc.ref, or svc.name, or svc.serviceCode, or JSON.stringify(svc). -/
def svcKey (s : SvcRec) : String :=
  if s.ref ≠ "" then s.ref
  else if s.name ≠ "" then s.name
  else if s.serviceCode ≠ "" then s.serviceCode
  else jsonStringify s

/-- The stop index stopToServices: atco to a keyed bucket of records, as
nested association lists in insertion order. -/
abbrev StopIndex : Type := List (String × List (String × SvcRec))

/-- add from build.js: ignore an empty stop identifier, create the stop's
bucket on demand, and insert the record under its identity key only when the
key is not already present. -/
def add (m : StopIndex) (atco : String) (svc : SvcRec) : StopIndex :=
  if atco = "" then m
  else
    let bucket := (lookupAssoc m atco).getD []
    let key := svcKey svc
    if (lookupAssoc bucket key).isSome then m
    else updateAssoc m atco (bucket ++ [(key, svc)])

theorem add_of_present (m : StopIndex) (atco : String) (svc : SvcRec) (ha : atco ≠ "")
    (h : (lookupAssoc ((lookupAssoc m atco).getD []) (svcKey svc)).isSome = true) :
    add m atco svc = m := by
  unfold add
  simp [ha, h]

theorem add_of_absent (m : StopIndex) (atco : String) (svc : SvcRec) (ha : atco ≠ "")
    (h : lookupAssoc ((lookupAssoc m atco).getD []) (svcKey svc) = none) :
    add m atco svc = updateAssoc m atco ((lookupAssoc m atco).getD [] ++ [(svcKey svc, svc)]) := by
  unfold add
  simp [ha, h]

/-- C8: adding the same record to the same stop twice is idempotent; the
second call leaves the stop's bucket, and hence its count, unchanged. -/
theorem c8_add_idempotent (m : StopIndex) (atco : String) (svc : SvcRec) :
    add (add m atco svc) atco svc = add m atco svc := by
  by_cases ha : atco = ""
  · simp [add, ha]
  · cases h : lookupAssoc ((lookupAssoc m atco).getD []) (svcKey svc) with
    | some v =>
        have h1 : add m atco svc = m := add_of_present m atco svc ha (by simp [h])
        rw [h1]
        exact h1
    | none =>
        have h1 := add_of_absent m atco svc ha h
        have hbucket : lookupAssoc (add m atco svc) atco =
            some ((lookupAssoc m atco).getD [] ++ [(svcKey svc, svc)]) := by
          rw [h1]; exact lookupAssoc_updateAssoc_self m atco _
        have hfound : (lookupAssoc ((lookupAssoc (add m atco svc) atco).getD [])
            (svcKey svc)).isSome = true := by
          rw [hbucket]
          simp [lookupAssoc_append_of_none _ _ svc h]
        exact add_of_present (add m atco svc) atco svc ha hfound

/-- C10: an add whose identity key is already taken at the stop is a no-op,
whatever the other fields of the later record carry, so the first-added record
stays stored; concretely, after adding a record under a fresh key, adding any
record with the same key changes nothing and the lookup still yields the
first record. -/
theorem c10_first_record_wins (m : StopIndex) (atco : String) (s1 s2 : SvcRec)
    (hk : svcKey s2 = svcKey s1) (ha : atco ≠ "")
    (habs : lookupAssoc ((lookupAssoc m atco).getD []) (svcKey s1) = none) :
    add (add m atco s1) atco s2 = add m atco s1 ∧
      lookupAssoc ((lookupAssoc (add (add m atco s1) atco s2) atco).getD [])
        (svcKey s2) = some s1 := by
  have h1 := add_of_absent m atco s1 ha habs
  have hbucket : lookupAssoc (add m atco s1) atco =
      some ((lookupAssoc m atco).getD [] ++ [(svcKey s1, s1)]) := by
    rw [h1]; exact lookupAssoc_updateAssoc_self m atco _
  have hfound : lookupAssoc ((lookupAssoc (add m atco s1) atco).getD []) (svcKey s2) = some s1 := by
    rw [hbucket, hk]
    simpa using lookupAssoc_append_of_none _ _ s1 habs
  have hnoop : add (add m atco s1) atco s2 = add m atco s1 :=
    add_of_present (add m atco s1) atco s2 ha (by simp [hfound])
  exact ⟨hnoop, by rw [hnoop]; exact hfound⟩

/-- C10 witness: at stop A, a later record with the same ref but a different
operator and service code does not replace the first-added record. -/
theorem c10_first_record_wins_witness :
    add (add [] "A" { ref := "7", name := "", operator := "", operatorCode := "", serviceCode := "" })
        "A" { ref := "7", name := "N", operator := "OP", operatorCode := "OC", serviceCode := "S9" } =
      add [] "A" { ref := "7", name := "", operator := "", operatorCode := "", serviceCode := "" } ∧
      lookupAssoc ((lookupAssoc
          (add (add [] "A" { ref := "7", name := "", operator := "", operatorCode := "", serviceCode := "" })
            "A" { ref := "7", name := "N", operator := "OP", operatorCode := "OC", serviceCode := "S9" }) "A").getD [])
        (svcKey { ref := "7", name := "N", operator := "OP", operatorCode := "OC", serviceCode := "S9" }) =
      some { ref := "7", name := "", operator := "", operatorCode := "", serviceCode := "" } :=
  c10_first_record_wins [] "A"
    { ref := "7", name := "", operator := "", operatorCode := "", serviceCode := "" }
    { ref := "7", name := "N", operator := "OP", operatorCode := "OC", serviceCode := "S9" }
    (by decide) (by decide) (by decide)

/-- An operator entry of the document-local operator index built by parseTXC
from the document's Operator declarations: resolved code and display name. -/
structure OpRec where
  code : String
  name : String
deriving DecidableEq

/-- Normalized per-document fields consumed by the service loop of parseTXC.
The operator index is taken as already built before the loop runs (distinct
keys in insertion order); vjServiceRefs holds, per declared vehicle journey,
the value String(vj.ServiceRef or vj.ServiceCode or empty).trim(). -/
structure TxcDoc where
  vjServiceRefs : List String
  sectionStops : List String
  operatorIndex : List (String × OpRec)
  dates : DocDates
  revisionNumber : Option Int
  pubTs : Option Int
deriving DecidableEq

/-- The set vjCodes of parseTXC: the non-empty vehicle-journey service
references of the document. -/
def vjCodesOf (doc : TxcDoc) : List String :=
  doc.vjServiceRefs.filter fun c => c != ""

/-- Normalized fields of one declared Service element used by the loop body.
serviceCode holds String(s.ServiceCode or empty).trim(); operatorNames holds,
per Operator under the service, the first non-empty of OperatorNameOnLicence,
TradingName, OperatorShortName. -/
structure ServiceEntry where
  serviceCode : String
  dates : SvcDates
  revisionNumber : Option Int
  linesLineLineName : String
  lineName : String
  description : String
  serviceRef : String
  registeredOperatorRef : String
  operatorNames : List String
deriving DecidableEq

/-- The candidate VersionKey of a service occurrence, as pickBest computes it
from the service and its enclosing document. -/
def candidateKey (doc : TxcDoc) (s : ServiceEntry) : VersionKey :=
  pickBest s.revisionNumber doc.revisionNumber doc.pubTs

/-- The svc record construction of the loop body of parseTXC: display line,
operator code and name determination (document operator index, else the sole
declared operator, else names hanging off the service), operator resolution,
and the ref and name guesses. -/
def buildSvcRec (nocMap overrides : List (String × String)) (doc : TxcDoc)
    (s : ServiceEntry) : SvcRec :=
  let line := firstNonEmpty [s.linesLineLineName, s.lineName, s.description]
  let opRef := jsTrim s.registeredOperatorRef
  let pair :=
    match (if opRef ≠ "" then lookupAssoc doc.operatorIndex opRef else none) with
    | some info => (if info.code ≠ "" then info.code else opRef, info.name)
    | none =>
      if doc.operatorIndex.length = 1 then
        match doc.operatorIndex.head? with
        | some (_, only) => (if only.code ≠ "" then only.code else opRef, only.name)
        | none => (opRef, "")
      else
        let ops := (s.operatorNames.map jsTrim).filter fun x => x != ""
        let nm0 := ops.headD ""
        (if opRef ≠ "" then opRef else nm0, nm0)
  let rawCode := pair.1
  let txcOpName := pair.2
  let resolvedOperator := resolveOperator rawCode txcOpName nocMap overrides
  let refGuess := firstNonEmpty [s.serviceRef, s.lineName, line]
  { ref := jsTrim refGuess
    name := jsTrim (firstNonEmpty [line, refGuess])
    operator := jsTrim resolvedOperator
    operatorCode := jsTrim rawCode
    serviceCode := s.serviceCode }

/-- The mutable run state threaded through the service loop: the retained
version per service code, and the stop index. -/
structure ParseState where
  best : List (String × VersionKey)
  index : StopIndex
deriving DecidableEq

/-- The loop body of parseTXC after the vehicle-journey gate: validity filter,
version gate with retained-key update, record construction, and association
of the record with every stop of the document's journey-pattern sections. -/
def afterVjGate (today : Int) (nocMap overrides : List (String × String)) (doc : TxcDoc)
    (s : ServiceEntry) (st : ParseState) : ParseState :=
  if !(serviceIsActiveToday today s.dates doc.dates) then st
  else if s.serviceCode != "" && !(versionAccepts st.best s.serviceCode (candidateKey doc s)) then st
  else
    let best := if s.serviceCode != "" then
        updateAssoc st.best s.serviceCode (candidateKey doc s)
      else st.best
    let svc := buildSvcRec nocMap overrides doc s
    { best := best, index := doc.sectionStops.foldl (fun idx atco => add idx atco svc) st.index }

/-- One iteration of the service loop of parseTXC (stats counters omitted):
the vehicle-journey gate followed by the rest of the loop body. -/
def processService (today : Int) (nocMap overrides : List (String × String)) (doc : TxcDoc)
    (s : ServiceEntry) (st : ParseState) : ParseState :=
  if decide ((vjCodesOf doc).length ≠ 0) && s.serviceCode != "" &&
      !((vjCodesOf doc).contains s.serviceCode) then st
  else afterVjGate today nocMap overrides doc s st

/-- C4: for a non-empty service code, the version gate accepts a candidate
exactly when the code has never been seen or the candidate strictly exceeds
the retained key (higher revision, or equal revision and strictly later
publication timestamp); a rejected occurrence, an exactly equal key included,
leaves the whole parse state unchanged, so none of its stop associations are
added. -/
theorem c4_version_resolution (today : Int) (nocMap overrides : List (String × String))
    (doc : TxcDoc) (s : ServiceEntry) (st : ParseState) (hcode : s.serviceCode ≠ "") :
    (versionAccepts st.best s.serviceCode (candidateKey doc s) = true ↔
      lookupAssoc st.best s.serviceCode = none ∨
        ∃ prev, lookupAssoc st.best s.serviceCode = some prev ∧
          (prev.rev < (candidateKey doc s).rev ∨
            ((candidateKey doc s).rev = prev.rev ∧ prev.pubTs < (candidateKey doc s).pubTs)))
    ∧ (versionAccepts st.best s.serviceCode (candidateKey doc s) = false →
        processService today nocMap overrides doc s st = st) := by
  constructor
  · unfold versionAccepts
    cases h : lookupAssoc st.best s.serviceCode with
    | none => simp
    | some prev => simp [newer_iff]
  · intro hrej
    unfold processService
    split
    · rfl
    · unfold afterVjGate
      split
      · rfl
      · split
        · rfl
        · rename_i hgate
          exfalso
          apply hgate
          simp [hcode, hrej]

def c4Doc : TxcDoc :=
  { vjServiceRefs := [], sectionStops := ["A"], operatorIndex := [],
    dates := { vbStart := none, vbEnd := none, ropStart := none, ropEnd := none },
    revisionNumber := none, pubTs := some 10 }

def c4Svc : ServiceEntry :=
  { serviceCode := "SC1", dates := { opStart := none, opEnd := none },
    revisionNumber := some 5, linesLineLineName := "", lineName := "",
    description := "", serviceRef := "", registeredOperatorRef := "", operatorNames := [] }

def c4St : ParseState := { best := [("SC1", { rev := 5, pubTs := 10 })], index := [] }

/-- C4 witness: a candidate carrying exactly the retained key (revision 5,
timestamp 10) is rejected and the parse state is left unchanged. -/
theorem c4_version_resolution_witness :
    processService 0 [] [] c4Doc c4Svc c4St = c4St :=
  (c4_version_resolution 0 [] [] c4Doc c4Svc c4St (by decide)).2 (by decide)

/-- C5 amended: when the document's vehicle journeys contribute at least one
non-empty service reference, a service with a non-empty code is extracted only
when its code appears among those references; a service with an empty code,
and every service when no non-empty reference exists, passes the gate
unconditionally and is processed by the rest of the loop (the other filters). -/
theorem c5_vehicle_journey_gate (today : Int) (nocMap overrides : List (String × String))
    (doc : TxcDoc) (s : ServiceEntry) (st : ParseState) :
    (vjCodesOf doc ≠ [] → s.serviceCode ≠ "" → s.serviceCode ∉ vjCodesOf doc →
        processService today nocMap overrides doc s st = st)
    ∧ (vjCodesOf doc = [] ∨ s.serviceCode = "" ∨ s.serviceCode ∈ vjCodesOf doc →
        processService today nocMap overrides doc s st =
          afterVjGate today nocMap overrides doc s st) := by
  constructor
  · intro hne hcode hmem
    unfold processService
    split
    · rfl
    · rename_i hgate
      exfalso
      apply hgate
      simp [hcode, hmem]
      exact fun hnil => hne hnil
  · intro hpass
    unfold processService
    split
    · rename_i hgate
      rcases hpass with h | h | h
      · simp [h] at hgate
      · simp [h] at hgate
      · simp at hgate
        exact absurd h hgate.2
    · rfl

def c5Doc : TxcDoc :=
  { vjServiceRefs := ["S1"], sectionStops := ["A"], operatorIndex := [],
    dates := { vbStart := none, vbEnd := none, ropStart := none, ropEnd := none },
    revisionNumber := none, pubTs := none }

def c5SvcOther : ServiceEntry :=
  { serviceCode := "S2", dates := { opStart := none, opEnd := none },
    revisionNumber := none, linesLineLineName := "", lineName := "",
    description := "", serviceRef := "", registeredOperatorRef := "", operatorNames := [] }

def c5SvcEmpty : ServiceEntry :=
  { serviceCode := "", dates := { opStart := none, opEnd := none },
    revisionNumber := none, linesLineLineName := "", lineName := "",
    description := "", serviceRef := "99", registeredOperatorRef := "", operatorNames := [] }

/-- C5 witness: with vehicle journeys referencing only S1, the service with
code S2 is skipped and the parse state is unchanged. -/
theorem c5_vehicle_journey_gate_witness :
    processService 0 [] [] c5Doc c5SvcOther { best := [], index := [] } =
      { best := [], index := [] } :=
  (c5_vehicle_journey_gate 0 [] [] c5Doc c5SvcOther { best := [], index := [] }).1
    (by decide) (by decide) (by decide)

def c5Rec : SvcRec :=
  { ref := "99", name := "99", operator := "", operatorCode := "", serviceCode := "" }

/-- C5 counterexample: the document declares a vehicle journey whose only
service reference is S1, yet the service with the empty service code is
extracted regardless: it reaches the index and is attached to stop A, even
though its code does not appear among the vehicle-journey references. -/
theorem c5_counterexample :
    vjCodesOf c5Doc = ["S1"] ∧ c5SvcEmpty.serviceCode ∉ vjCodesOf c5Doc ∧
      (processService 0 [] [] c5Doc c5SvcEmpty { best := [], index := [] }).index =
        [("A", [("99", c5Rec)])] := by
  refine ⟨by decide, by decide, ?_⟩
  decide

/-- Numeric value of a non-empty digit string, as the unary plus of the
regular-expression capture in the output builder computes it. -/
def digitsToNat (ds : List Char) : Nat :=
  ds.foldl (fun n c => n * 10 + (c.toNat - 48)) 0

/-- The helper num of the output builder: match a leading run of digits and
convert it, with none standing for NaN when the string has no leading digit. -/
def numLead (v : String) : Option Nat :=
  let ds := v.data.takeWhile Char.isDigit
  if ds.isEmpty then none else some (digitsToNat ds)

/-- The sort comparator of the output builder. Records with numeric leading
runs compare by value; a numeric-leading record sorts before a non-numeric
one; otherwise the locale-aware numeric localeCompare applies to ref falling
back to name. The localeCompare collation is environment-defined and is
therefore a parameter. -/
def cmpSvc (fallback : String → String → Int) (a b : SvcRec) : Int :=
  match numLead a.ref, numLead b.ref with
  | some an, some bn => (an : Int) - bn
  | some _, none => -1
  | none, some _ => 1
  | none, none =>
      fallback (if a.ref ≠ "" then a.ref else a.name) (if b.ref ≠ "" then b.ref else b.name)

/-- Stable insertion of a record into an already sorted list: the record goes
before the first element it does not compare after. -/
def insertCmp (fallback : String → String → Int) (x : SvcRec) : List SvcRec → List SvcRec
  | [] => [x]
  | y :: ys => if cmpSvc fallback x y ≤ 0 then x :: y :: ys else y :: insertCmp fallback x ys

/-- Stable comparison sort with the output builder's comparator, modelling
Array.prototype.sort (stable since ES2019). -/
def sortServices (fallback : String → String → Int) : List SvcRec → List SvcRec
  | [] => []
  | x :: xs => insertCmp fallback x (sortServices fallback xs)

def mkRefSvc (r : String) : SvcRec :=
  { ref := r, name := "", operator := "", operatorCode := "", serviceCode := "" }

/-- C2 counterexample: under the builder's comparator the refs 12, 3, X2, 2B
do not sort in the claimed order 3, 12, 2B, X2, because 2B has the leading
digit run 2 and therefore sorts among the numeric-leading records. -/
theorem c2_sort_counterexample :
    sortServices (fun _ _ => 0) [mkRefSvc "12", mkRefSvc "3", mkRefSvc "X2", mkRefSvc "2B"] ≠
      [mkRefSvc "3", mkRefSvc "12", mkRefSvc "2B", mkRefSvc "X2"] := by
  decide

/-- C2 amended: a leading run of digits counts even when letters follow it, so
2B is numeric-leading with value 2 and the four refs 12, 3, X2, 2B sort as
2B, 3, 12, X2 — numeric-leading records first ascending by value, the
non-numeric-leading X2 last — for every choice of locale fallback. -/
theorem c2_sort_order (fallback : String → String → Int) :
    sortServices fallback [mkRefSvc "12", mkRefSvc "3", mkRefSvc "X2", mkRefSvc "2B"] =
      [mkRefSvc "2B", mkRefSvc "3", mkRefSvc "12", mkRefSvc "X2"] := rfl

/-- Model of String.prototype.slice(0, 4): the first four characters. -/
def jsSlice4 (s : String) : String :=
  ⟨s.data.take 4⟩

/-- Bucket assignment of shard.js: String(atco).slice(0, 4) or, when that
slice is empty (only possible for the empty identifier), the catch-all
bucket misc. -/
def bucketOf (atco : String) : String :=
  let p := jsSlice4 atco
  if p = "" then "misc" else p

/-- One step of the shard grouping loop: append the entry to the bucket named
by its identifier's assigned bucket, creating the bucket on demand. -/
def shardStep {α : Type} (bs : List (String × List (String × α))) (q : String × α) :
    List (String × List (String × α)) :=
  updateAssoc bs (bucketOf q.1) ((lookupAssoc bs (bucketOf q.1)).getD [] ++ [q])

/-- The shard grouping of shard.js: fold the output mapping's entries into
buckets keyed by bucketOf. -/
def shardBuckets {α : Type} (entries : List (String × α)) :
    List (String × List (String × α)) :=
  entries.foldl shardStep []

theorem shardFold_lookup {α : Type} (entries : List (String × α))
    (acc : List (String × List (String × α))) (pre : String) :
    (lookupAssoc (entries.foldl shardStep acc) pre).getD [] =
      (lookupAssoc acc pre).getD [] ++
        entries.filter (fun q => decide (bucketOf q.1 = pre)) := by
  induction entries generalizing acc with
  | nil => simp
  | cons q rest ih =>
    rw [List.foldl_cons, ih]
    by_cases h : bucketOf q.1 = pre
    · have hs : lookupAssoc (shardStep acc q) pre =
          some ((lookupAssoc acc pre).getD [] ++ [q]) := by
        unfold shardStep
        rw [h]
        exact lookupAssoc_updateAssoc_self acc pre _
      rw [hs]
      simp [h]
    · have hs : lookupAssoc (shardStep acc q) pre = lookupAssoc acc pre := by
        unfold shardStep
        exact lookupAssoc_updateAssoc_ne acc (bucketOf q.1) pre _ h
      rw [hs]
      simp [h]

/-- C9 amended: the sharder partitions the output mapping by the first four
characters of the stop identifier — each bucket holds exactly the entries
whose identifier is assigned that bucket, in input order — and the bucket of
every non-empty identifier is its four-character slice (which, for an
identifier shorter than four characters, is the identifier itself); only the
empty identifier falls into the catch-all misc bucket. -/
theorem c9_shard_partition (α : Type) (entries : List (String × α)) (pre atco : String)
    (h : atco ≠ "") :
    ((lookupAssoc (shardBuckets entries) pre).getD [] =
        entries.filter (fun q => decide (bucketOf q.1 = pre)))
      ∧ bucketOf atco = atco.take 4
      ∧ bucketOf "" = "misc" := by
  refine ⟨?_, ?_, rfl⟩
  · simpa using shardFold_lookup entries [] pre
  · have hd : atco.data ≠ [] := by
      intro hnil
      apply h
      exact String.ext hnil
    have htk : atco.data.take 4 ≠ [] := by
      intro hnil
      rcases List.take_eq_nil_iff.mp hnil with h4 | hl
      · omega
      · exact hd hl
    unfold bucketOf jsSlice4
    rw [String.take_eq]
    have hne : (⟨atco.data.take 4⟩ : String) ≠ "" := by
      intro hmk
      apply htk
      have := congrArg String.data hmk
      simpa using this
    simp [hne]

def c9Entries : List (String × Nat) := [("18000001", 1), ("AB", 2), ("18000777", 3)]

/-- C9 witness: on a concrete mapping, the 1800 bucket holds exactly the two
identifiers with that prefix, the bucket of the short identifier AB is its own
slice, and the empty identifier is assigned the misc bucket. -/
theorem c9_shard_partition_witness :
    ((lookupAssoc (shardBuckets c9Entries) "1800").getD [] =
        c9Entries.filter (fun q => decide (bucketOf q.1 = "1800")))
      ∧ bucketOf "AB" = "AB".take 4
      ∧ bucketOf "" = "misc" :=
  c9_shard_partition Nat c9Entries "1800" "AB" (by decide)

/-- C9 counterexample: the identifiers AB and A are both shorter than the
four-character prefix, so by the claim both would land in the one catch-all
bucket; the code instead assigns them the distinct buckets AB and A, and
neither is the catch-all misc bucket. -/
theorem c9_short_id_counterexample :
    bucketOf "AB" = "AB" ∧ bucketOf "A" = "A" ∧
      bucketOf "AB" ≠ bucketOf "A" ∧ bucketOf "AB" ≠ "misc" := by
  decide

end TxcBuild
